import Mathlib

/-!
Verification of the calcium-import pipeline (src/src/index.ts).

The embedding models the per-record pipeline of the later revision of
index.ts (the one with the date swap and the cutoff filter):
extraction of scalar properties from a raw calendar component,
zod-shape validation with field transforms, date-range resolution with
the end-before-start swap, category resolution, the cutoff filter, and
the partition into accepted / broken / unparsed buckets.

JavaScript numbers are modeled as Int (all date fields in the feed are
integers).  A dayjs value built from a pure calendar date is modeled as
its day count from the civil epoch 1970-01-01 (an Int): dayjs date
comparison on midnight-anchored values is exactly comparison of these
day counts, and formatting is recovered with the standard civil-date
algorithms.  JS Date month/day overflow normalization (month 13 rolls
into the next year, day 32 into the next month) is reproduced by the
same arithmetic.
-/

/-- A JavaScript value as it appears in the flat property record handed
to validation: the scalar property values taken from ical.js. -/
inductive JSVal where
  | vundefined
  | vnull
  | vbool (b : Bool)
  | vnum (n : Int)
  | vstr (s : String)
  | vobj (fields : List (String × JSVal))

/-- A JS value that is either undefined, null, or a proper value; used
for the cabin/location field, where the code distinguishes null from
undefined. -/
inductive JSOpt (α : Type) where
  | undefinedV
  | null
  | val (a : α)
deriving DecidableEq

/-- The semantic date object produced by validation against dateShape:
z.object({isDate: z.literal(true), year, month, day}).  month is
1-based, as delivered by ical.js. -/
structure DateObj where
  year : Int
  month : Int
  day : Int
deriving DecidableEq

/-- The validated recurrence object: z.object({freq: z.literal(DAILY),
until: dateShape}).  freq is always the literal DAILY, so only until is
carried. -/
structure RRule where
  «until» : DateObj
deriving DecidableEq

/-- The result of a successful run of validate(obj, shape): the typed
record the orchestrator consumes. -/
structure ValidatedEvent where
  uid : String
  summary : Option String
  dtstart : DateObj
  dtend : Option DateObj
  categories : Option String
  description : Option String
  rrule : Option RRule
deriving DecidableEq

/- ---------------- Date arithmetic (dayjs model) ---------------- -/

/-- Day count from 1970-01-01 of the civil date (y, m, d) with m in
1..12; d may be any integer and simply offsets from the first of the
month, which is exactly how JS Date day overflow behaves. -/
def daysFromCivil (y0 m d : Int) : Int :=
  let y := if m ≤ 2 then y0 - 1 else y0
  let era := y.fdiv 400
  let yoe := y - era * 400
  let mp := (m + 9).emod 12
  let doy := (153 * mp + 2) / 5 + d - 1
  let doe := yoe * 365 + yoe / 4 - yoe / 100 + doy
  era * 146097 + doe - 719468

/-- Inverse of daysFromCivil: the civil (year, month, day) of a day
count, month in 1..12. -/
def civilFromDays (z0 : Int) : Int × Int × Int :=
  let z := z0 + 719468
  let era := z.fdiv 146097
  let doe := z - era * 146097
  let yoe := (doe - doe / 1460 + doe / 36524 - doe / 146096) / 365
  let y := yoe + era * 400
  let doy := doe - (365 * yoe + yoe / 4 - yoe / 100)
  let mp := (5 * doy + 2) / 153
  let d := doy - (153 * mp + 2) / 5 + 1
  let m := mp + (if mp < 10 then 3 else -9)
  (y + (if m ≤ 2 then 1 else 0), m, d)

/-- dayjs({year, month, day}) with 0-based month, as a day count: the
month is first normalized into the year, then the day offsets from the
first of the month (JS Date rollover semantics). -/
def dayjsFromObject (year month0 day : Int) : Int :=
  let ym := year * 12 + month0
  daysFromCivil (ym.fdiv 12) (ym.emod 12 + 1) day

/-- parseDate (index.ts): dayjs({year: obj.year, month: obj.month - 1,
day: obj.day}). -/
def parseDate (obj : DateObj) : Int :=
  dayjsFromObject obj.year (obj.month - 1) obj.day

/-- dayjs zero-padding of a formatted number to the given width. -/
def padStart (s : String) (len : Nat) : String :=
  if s.length ≥ len then s else String.mk (List.replicate (len - s.length) '0') ++ s

/-- formatDate (index.ts): obj.format with a four-digit year and
two-digit month and day, dash separated. -/
def formatDate (t : Int) : String :=
  let c := civilFromDays t
  padStart (toString c.1) 4 ++ "-" ++ padStart (toString c.2.1) 2 ++ "-" ++ padStart (toString c.2.2) 2

/- ---------------- Field transforms ---------------- -/

/-- The character rewrite inside fixApostrophe: the regex
[replacement character] global-replaced by the right single quote,
applied character by character. -/
def fixChar (c : Char) : Char :=
  if c = '\uFFFD' then '\u2019' else c

/-- fixApostrophe (index.ts): undefined on an absent or empty string
(the bang-length guard returns undefined), otherwise the string with
every replacement-character occurrence replaced. -/
def fixApostrophe : Option String → Option String
  | none => none
  | some s => if s.length = 0 then none else some (String.mk (s.data.map fixChar))

/-- JS word character for the regex class: ASCII letters, digits and
underscore. -/
def isWordChar (c : Char) : Bool :=
  c.isAlpha || c.isDigit || c = '_'

/-- A character matched by an un-escaped regex dot: anything but a JS
line terminator. -/
def isDotChar (c : Char) : Bool :=
  !(c = '\n' || c = '\r' || c = '\u2028' || c = '\u2029')

/-- The anchored regex of extractCalciumId,
ten digits, dash, captured word token, dash, six digits, at sign,
the letters afosterri, an un-escaped dot (any character), then org.
Every piece after the token has fixed length, so a match decomposes the
string uniquely; the captured token is returned. -/
def matchCalciumId (cs : List Char) : Option (List Char) :=
  let n := cs.length
  if n < 33 then none
  else
    let pre := cs.take 10
    let mid := (cs.drop 11).take (n - 32)
    let tail := cs.drop (n - 21)
    match tail with
    | '-' :: rest =>
      match rest.drop 6 with
      | '@' :: rest2 =>
        if rest2.take 9 = "afosterri".data then
          match rest2.drop 9 with
          | dot :: 'o' :: 'r' :: 'g' :: [] =>
            if pre.all Char.isDigit && cs.get? 10 == some '-' && !mid.isEmpty
               && mid.all isWordChar && (rest.take 6).all Char.isDigit && isDotChar dot
            then some mid else none
          | _ => none
        else none
      | _ => none
    | _ => none

/-- extractCalciumId (index.ts, later revision): throws on a
non-matching uid — modeled as none — and otherwise replaces the whole
match by the captured middle token. -/
def extractCalciumId (id : String) : Option String :=
  (matchCalciumId id.data).map String.mk

/- ---------------- Category resolution ---------------- -/

/-- The six known category labels (the keys of cabinMap). -/
def cabinLabels : List String :=
  ["Foster", "House", "Ide", "Kendrew", "Meeting", "Mosher"]

/-- cabinMap (index.ts): label to opaque location id; Meeting maps to
null; an unknown key reads as undefined (JS property access). -/
def cabinMap (c : String) : JSOpt String :=
  if c = "Foster" then .val "45617389-7678-42bf-bfb4-83304a389dc7"
  else if c = "House" then .val "430a512f-6a35-4ed0-9e4b-4efa7a90a0e7"
  else if c = "Ide" then .val "d0b162c0-8a64-4946-b148-a7362c296709"
  else if c = "Kendrew" then .val "2bb998a2-7c9a-4367-bcdb-b8e8a144b8a7"
  else if c = "Meeting" then .null
  else if c = "Mosher" then .val "649d65b6-9a50-491f-b0f2-8a0e22ee6275"
  else .undefinedV

/-- The cabin expression of the orchestrator:
(data.categories AND cabinMap lookup) nullish-coalesced with null.
An absent label short-circuits to undefined and the coalescing turns it
into null; a Meeting (null) lookup also coalesces to null; an empty
string would short-circuit to itself (falsy but not nullish). -/
def resolveCategory : Option String → JSOpt String
  | none => .null
  | some c =>
    if c = "" then .val ""
    else
      match cabinMap c with
      | .undefinedV => .null
      | .null => .null
      | .val v => .val v

/- ---------------- Validation (zod shape) ---------------- -/

/-- JS property read on the flat record: a missing key reads as
undefined. -/
def getField (fs : List (String × JSVal)) (k : String) : JSVal :=
  match fs.lookup k with
  | some v => v
  | none => .vundefined

/-- z.string(): accepts exactly string values. -/
def asString : JSVal → Option String
  | .vstr s => some s
  | _ => none

/-- dateShape: an object whose isDate field is the literal true and
whose year, month, day fields are numbers. -/
def asDate : JSVal → Option DateObj
  | .vobj fs =>
    match getField fs "isDate", getField fs "year", getField fs "month", getField fs "day" with
    | .vbool true, .vnum y, .vnum m, .vnum d => some ⟨y, m, d⟩
    | _, _, _, _ => none
  | _ => none

/-- cabinShape: a union of the six label literals (the two z.never
members of the union never match anything). -/
def asCabin (v : JSVal) : Option String :=
  match v with
  | .vstr s => if s ∈ cabinLabels then some s else none
  | _ => none

/-- The rrule shape: an object whose freq field is the literal DAILY
and whose until field satisfies dateShape. -/
def asRRule (v : JSVal) : Option RRule :=
  match v with
  | .vobj fs =>
    match getField fs "freq", asDate (getField fs "until") with
    | .vstr "DAILY", some u => some ⟨u⟩
    | _, _ => none
  | _ => none

/-- zod .optional(): undefined validates to an absent value; any other
value must pass the inner shape. -/
def asOptional (f : JSVal → Option α) (v : JSVal) : Option (Option α) :=
  match v with
  | .vundefined => some none
  | _ => (f v).map some

/-- Modelled from the spec: the validate helper imported from
./validate is not part of the sources; per the spec it is non-throwing
and returns either the typed record or a validation error (modeled as
none), with a uid whose transform fails counting as a validation
failure.  The field rules themselves are the zod shape declared in
index.ts: required uid transformed by extractCalciumId, required
summary transformed by fixApostrophe, required dtstart, optional dtend,
optional categories from the six labels, optional description
transformed by fixApostrophe, optional rrule with the literal DAILY
frequency.  Success requires every field to pass, so the nested
short-circuit below has the same success value as zod whole-record
validation. -/
def validate (obj : List (String × JSVal)) : Option ValidatedEvent :=
  match asString (getField obj "uid") with
  | none => none
  | some uidRaw =>
    match extractCalciumId uidRaw with
    | none => none
    | some uid =>
      match asString (getField obj "summary") with
      | none => none
      | some summaryRaw =>
        match asDate (getField obj "dtstart") with
        | none => none
        | some dtstart =>
          match asOptional asDate (getField obj "dtend") with
          | none => none
          | some dtend =>
            match asOptional asCabin (getField obj "categories") with
            | none => none
            | some categories =>
              match asOptional asString (getField obj "description") with
              | none => none
              | some descriptionRaw =>
                match asOptional asRRule (getField obj "rrule") with
                | none => none
                | some rrule =>
                  some { uid := uid
                         summary := fixApostrophe (some summaryRaw)
                         dtstart := dtstart
                         dtend := dtend
                         categories := categories
                         description := fixApostrophe descriptionRaw
                         rrule := rrule }

/- ---------------- Extraction ---------------- -/

/-- One raw ical property: its name, its value list (getValues), and
whether reading its values raises (malformed encoding in the feed). -/
structure RawProp where
  name : String
  values : List JSVal
  raises : Bool

/-- A raw vevent component: its ordered property list. -/
structure RawComponent where
  props : List RawProp

/-- JS object assignment obj[k] = v: an existing key keeps its position
and gets the new value, a new key is appended. -/
def setKey (obj : List (String × JSVal)) (k : String) (v : JSVal) : List (String × JSVal) :=
  if obj.any (fun p => p.1 = k) then obj.map (fun p => if p.1 = k then (k, v) else p)
  else obj ++ [(k, v)]

/-- getValues()[0]: the first value, undefined when the list is empty. -/
def headValue : List JSVal → JSVal
  | [] => .vundefined
  | v :: _ => v

/-- The extraction loop of the orchestrator: visit each property in
order, skip exdate before touching its values, store the first value
under the property name; a raising value read aborts the whole
extraction with an error (the catch branch). -/
def extractLoop : List (String × JSVal) → List RawProp → Except Unit (List (String × JSVal))
  | obj, [] => .ok obj
  | obj, p :: ps =>
    if p.name = "exdate" then extractLoop obj ps
    else if p.raises then .error ()
    else extractLoop (setKey obj p.name (headValue p.values)) ps

/-- Extract a raw component into its flat property record. -/
def extract (c : RawComponent) : Except Unit (List (String × JSVal)) :=
  extractLoop [] c.props

/- ---------------- Orchestrator ---------------- -/

/-- A broken-bucket diagnostic: the component ordinal and its raw
property set (the catch branch of the extraction loop). -/
structure BrokenDiag where
  number : Nat
  object : List RawProp

/-- An unparsed-bucket diagnostic: the component ordinal and the flat
record that failed validation. -/
structure UnparsedDiag where
  number : Nat
  object : List (String × JSVal)

/-- The normalized output record (one element of parsed). -/
structure NormalizedEvent where
  importId : String
  title : Option String
  description : Option String
  cabin : JSOpt String
  dates_start : String
  dates_end : String
deriving DecidableEq

/-- resolveRange: dates[0] is parseDate(dtstart), dates[1] is
parseDate(rrule.until when present, else dtstart); the pair is swapped
when the end is strictly before the start. -/
def resolveRange (dtstart : DateObj) (rrule : Option RRule) : Int × Int :=
  let d0 := parseDate dtstart
  let d1 := parseDate (match rrule with | some r => r.«until» | none => dtstart)
  if d1 < d0 then (d1, d0) else (d0, d1)

/-- Assemble the normalized event from the validated record and the
resolved (post-swap) range. -/
def mkEvent (data : ValidatedEvent) (range : Int × Int) : NormalizedEvent :=
  { importId := data.uid
    title := data.summary
    description := data.description
    cabin := resolveCategory data.categories
    dates_start := formatDate range.1
    dates_end := formatDate range.2 }

/-- What one iteration of the orchestrator map does with a component. -/
inductive StepResult where
  | brokenR (d : BrokenDiag)
  | unparsedR (d : UnparsedDiag)
  | dropped
  | okR (e : NormalizedEvent)

/-- One iteration of the orchestrator: extract, validate, resolve the
range, drop when a cutoff is supplied and the resolved end is strictly
after it, otherwise emit the normalized event.  The cutoff is modeled
as the day count of the supplied ISO cutoff date; none covers an
absent or empty cutoff string (the bang-length guard). -/
def processComponent (cutoff : Option Int) (i : Nat) (c : RawComponent) : StepResult :=
  match extract c with
  | .error _ => .brokenR ⟨i, c.props⟩
  | .ok obj =>
    match validate obj with
    | none => .unparsedR ⟨i, obj⟩
    | some data =>
      match cutoff with
      | some cut =>
        if cut < (resolveRange data.dtstart data.rrule).2 then .dropped
        else .okR (mkEvent data (resolveRange data.dtstart data.rrule))
      | none => .okR (mkEvent data (resolveRange data.dtstart data.rrule))

/-- The accepted record contributed by a step, if any. -/
def acceptedOf : StepResult → Option NormalizedEvent
  | .okR e => some e
  | _ => none

/-- The broken diagnostic contributed by a step, if any. -/
def brokenOf : StepResult → Option BrokenDiag
  | .brokenR d => some d
  | _ => none

/-- The unparsed diagnostic contributed by a step, if any. -/
def unparsedOf : StepResult → Option UnparsedDiag
  | .unparsedR d => some d
  | _ => none

/-- The orchestrator map: each component processed with its ordinal,
starting at i. -/
def runSteps (cutoff : Option Int) : Nat → List RawComponent → List StepResult
  | _, [] => []
  | i, c :: cs => processComponent cutoff i c :: runSteps cutoff (i + 1) cs

/-- The run output: the accepted list (parsed), the two diagnostic
buckets, and the count of accepted records with a falsy end date (the
NO END DAY filter). -/
structure RunResult where
  accepted : List NormalizedEvent
  broken : List BrokenDiag
  unparsed : List UnparsedDiag
  noEndCount : Nat

/-- ImportICS restricted to its pipeline core: iterate the component
list in source order, collect the three buckets, and count accepted
records whose end date string is falsy.  The surrounding file fetch,
logging and JSON write do not affect the returned value. -/
def ImportICS (comps : List RawComponent) (cutoff : Option Int) : RunResult :=
  { accepted := (runSteps cutoff 0 comps).filterMap acceptedOf
    broken := (runSteps cutoff 0 comps).filterMap brokenOf
    unparsed := (runSteps cutoff 0 comps).filterMap unparsedOf
    noEndCount := ((runSteps cutoff 0 comps).filterMap acceptedOf |>.filter (fun e => e.dates_end == "")).length }

theorem resolveRange_fst_le_snd (d : DateObj) (r : Option RRule) :
    (resolveRange d r).1 ≤ (resolveRange d r).2 := by
  simp only [resolveRange]
  split
  · next h => simpa using le_of_lt h
  · next h => simpa using le_of_not_lt h

theorem formatDate_ne_empty (t : Int) : formatDate t ≠ "" := by
  unfold formatDate
  intro hcon
  have hlen := congrArg String.length hcon
  have hdash : ("-" : String).length = 1 := rfl
  have hemp : ("" : String).length = 0 := rfl
  simp only [String.length_append, hdash, hemp] at hlen
  omega

theorem runSteps_nil (cutoff : Option Int) (i : Nat) : runSteps cutoff i [] = [] := rfl

theorem runSteps_cons (cutoff : Option Int) (i : Nat) (c : RawComponent) (cs : List RawComponent) :
    runSteps cutoff i (c :: cs) = processComponent cutoff i c :: runSteps cutoff (i + 1) cs := rfl

theorem runSteps_get? (cutoff : Option Int) (comps : List RawComponent) :
    ∀ (i j : Nat),
      (runSteps cutoff i comps).get? j = (comps.get? j).map (fun c => processComponent cutoff (i + j) c) := by
  induction comps with
  | nil => intro i j; cases j <;> rfl
  | cons c cs ih =>
    intro i j
    cases j with
    | zero => rfl
    | succ j =>
      have h1 : (runSteps cutoff i (c :: cs)).get? (j + 1) = (runSteps cutoff (i + 1) cs).get? j := rfl
      have h2 : (c :: cs).get? (j + 1) = cs.get? j := rfl
      rw [h1, h2, ih (i + 1) j]
      have harith : i + 1 + j = i + (j + 1) := by omega
      rw [harith]

theorem mem_runSteps {cutoff : Option Int} {s : StepResult} :
    ∀ {i : Nat} {comps : List RawComponent}, s ∈ runSteps cutoff i comps →
      ∃ j c, comps.get? j = some c ∧ s = processComponent cutoff (i + j) c := by
  intro i comps
  induction comps generalizing i with
  | nil => intro h; cases h
  | cons c cs ih =>
    intro h
    rw [runSteps_cons] at h
    rcases List.mem_cons.mp h with h0 | h1
    · exact ⟨0, c, rfl, by simpa using h0⟩
    · obtain ⟨j, c0, hg, hs⟩ := ih h1
      refine ⟨j + 1, c0, by simpa using hg, ?_⟩
      have harith : i + 1 + j = i + (j + 1) := by omega
      rw [harith] at hs
      exact hs

theorem step_mem {cutoff : Option Int} {comps : List RawComponent} {i : Nat} {c : RawComponent}
    (hc : comps.get? i = some c) :
    processComponent cutoff i c ∈ runSteps cutoff 0 comps := by
  have hg := runSteps_get? cutoff comps 0 i
  rw [hc] at hg
  simp only [Option.map_some, Nat.zero_add] at hg
  exact List.get?_mem hg

theorem acceptedOf_eq_some {s : StepResult} {e : NormalizedEvent} (h : acceptedOf s = some e) :
    s = StepResult.okR e := by
  cases s <;> simp [acceptedOf] at h
  rw [h]

theorem brokenOf_eq_some {s : StepResult} {d : BrokenDiag} (h : brokenOf s = some d) :
    s = StepResult.brokenR d := by
  cases s <;> simp [brokenOf] at h
  rw [h]

theorem unparsedOf_eq_some {s : StepResult} {d : UnparsedDiag} (h : unparsedOf s = some d) :
    s = StepResult.unparsedR d := by
  cases s <;> simp [unparsedOf] at h
  rw [h]

theorem processComponent_okR {cutoff : Option Int} {i : Nat} {c : RawComponent} {e : NormalizedEvent}
    (h : processComponent cutoff i c = StepResult.okR e) :
    ∃ obj data, extract c = Except.ok obj ∧ validate obj = some data
      ∧ e = mkEvent data (resolveRange data.dtstart data.rrule)
      ∧ ∀ D, cutoff = some D → (resolveRange data.dtstart data.rrule).2 ≤ D := by
  unfold processComponent at h
  split at h
  next _ => simp at h
  next obj hex =>
    split at h
    next hval => simp at h
    next data hval =>
      split at h
      next _ cut =>
        split at h
        next hlt => simp at h
        next hlt =>
          refine ⟨obj, data, hex, hval, ?_, ?_⟩
          · injection h with hh
            exact hh.symm
          · intro D hD
            injection hD with hDD
            omega
      next _ =>
        refine ⟨obj, data, hex, hval, ?_, ?_⟩
        · injection h with hh
          exact hh.symm
        · intro D hD
          exact Option.noConfusion hD

theorem processComponent_brokenR {cutoff : Option Int} {i : Nat} {c : RawComponent} {d : BrokenDiag}
    (h : processComponent cutoff i c = StepResult.brokenR d) :
    d.number = i ∧ d.object = c.props ∧ ∃ f, extract c = Except.error f := by
  unfold processComponent at h
  split at h
  next f hex =>
    injection h with hh
    rw [← hh]
    exact ⟨rfl, rfl, f, hex⟩
  next obj hex =>
    split at h
    next hval => simp at h
    next data hval =>
      split at h
      next _ cut =>
        split at h
        next hlt => simp at h
        next hlt => simp at h
      next _ => simp at h

theorem processComponent_unparsedR {cutoff : Option Int} {i : Nat} {c : RawComponent} {d : UnparsedDiag}
    (h : processComponent cutoff i c = StepResult.unparsedR d) :
    d.number = i ∧ extract c = Except.ok d.object ∧ validate d.object = none := by
  unfold processComponent at h
  split at h
  next _ => simp at h
  next obj hex =>
    split at h
    next hval =>
      injection h with hh
      rw [← hh]
      exact ⟨rfl, hex, hval⟩
    next data hval =>
      split at h
      next _ cut =>
        split at h
        next hlt => simp at h
        next hlt => simp at h
      next _ => simp at h

theorem mem_runSteps_zero {cutoff : Option Int} {s : StepResult} {comps : List RawComponent}
    (h : s ∈ runSteps cutoff 0 comps) :
    ∃ j c, comps.get? j = some c ∧ s = processComponent cutoff j c := by
  obtain ⟨j, c, hg, hs⟩ := mem_runSteps h
  rw [Nat.zero_add] at hs
  exact ⟨j, c, hg, hs⟩

theorem processComponent_of_validate_none {cutoff : Option Int} {i : Nat} {c : RawComponent}
    {obj : List (String × JSVal)}
    (hex : extract c = Except.ok obj) (hval : validate obj = none) :
    processComponent cutoff i c = StepResult.unparsedR ⟨i, obj⟩ := by
  unfold processComponent
  split
  next f hex2 => rw [hex] at hex2; cases hex2
  next obj2 hex2 =>
    rw [hex] at hex2
    injection hex2 with ho
    subst ho
    split
    next hv2 => rfl
    next data hv2 => rw [hval] at hv2; cases hv2

theorem processComponent_of_drop {D : Int} {i : Nat} {c : RawComponent}
    {obj : List (String × JSVal)} {data : ValidatedEvent}
    (hex : extract c = Except.ok obj) (hval : validate obj = some data)
    (hd : D < (resolveRange data.dtstart data.rrule).2) :
    processComponent (some D) i c = StepResult.dropped := by
  unfold processComponent
  split
  next f hex2 => rw [hex] at hex2; cases hex2
  next obj2 hex2 =>
    rw [hex] at hex2
    injection hex2 with ho
    subst ho
    split
    next hv2 => rw [hval] at hv2; cases hv2
    next data2 hv2 =>
      rw [hval] at hv2
      injection hv2 with hdd
      subst hdd
      show (if D < (resolveRange data.dtstart data.rrule).2 then StepResult.dropped
        else StepResult.okR (mkEvent data (resolveRange data.dtstart data.rrule))) = StepResult.dropped
      rw [if_pos hd]

theorem mem_accepted {comps : List RawComponent} {cutoff : Option Int} {e : NormalizedEvent}
    (h : e ∈ (ImportICS comps cutoff).accepted) :
    ∃ data : ValidatedEvent, e = mkEvent data (resolveRange data.dtstart data.rrule)
      ∧ ∀ D, cutoff = some D → (resolveRange data.dtstart data.rrule).2 ≤ D := by
  simp only [ImportICS] at h
  rcases List.mem_filterMap.mp h with ⟨s, hs, ha⟩
  obtain ⟨j, c, hg, hsp⟩ := mem_runSteps_zero hs
  rw [acceptedOf_eq_some ha] at hsp
  obtain ⟨obj, data, _, _, he2, hcut⟩ := processComponent_okR hsp.symm
  exact ⟨data, he2, hcut⟩

theorem mem_broken_spec {comps : List RawComponent} {cutoff : Option Int} {d : BrokenDiag}
    (h : d ∈ (ImportICS comps cutoff).broken) :
    ∃ c, comps.get? d.number = some c ∧ processComponent cutoff d.number c = StepResult.brokenR d := by
  simp only [ImportICS] at h
  rcases List.mem_filterMap.mp h with ⟨s, hs, hb⟩
  obtain ⟨j, c, hg, hsp⟩ := mem_runSteps_zero hs
  rw [brokenOf_eq_some hb] at hsp
  have hnum := (processComponent_brokenR hsp.symm).1
  subst hnum
  exact ⟨c, hg, hsp.symm⟩

theorem mem_unparsed_spec {comps : List RawComponent} {cutoff : Option Int} {d : UnparsedDiag}
    (h : d ∈ (ImportICS comps cutoff).unparsed) :
    ∃ c, comps.get? d.number = some c ∧ processComponent cutoff d.number c = StepResult.unparsedR d := by
  simp only [ImportICS] at h
  rcases List.mem_filterMap.mp h with ⟨s, hs, hb⟩
  obtain ⟨j, c, hg, hsp⟩ := mem_runSteps_zero hs
  rw [unparsedOf_eq_some hb] at hsp
  have hnum := (processComponent_unparsedR hsp.symm).1
  subst hnum
  exact ⟨c, hg, hsp.symm⟩

/- ---------------- Concrete sample inputs ---------------- -/

/-- The dtstart property value of the worked scenario: the pure date
2024-01-15 as delivered by ical.js. -/
def dtstartJS : JSVal :=
  .vobj [("isDate", .vbool true), ("year", .vnum 2024), ("month", .vnum 1), ("day", .vnum 15)]

/-- The scenario component: matching uid, summary Team Meeting, dtstart
2024-01-15, no recurrence, no category. -/
def goodComp : RawComponent :=
  ⟨[⟨"uid", [.vstr "1234567890-abc123-999999@afosterri.org"], false⟩,
    ⟨"summary", [.vstr "Team Meeting"], false⟩,
    ⟨"dtstart", [dtstartJS], false⟩]⟩

/-- The record the pipeline actually produces for goodComp; note the
cabin field is the JS null produced by the nullish coalescing, not
undefined. -/
def goodRecord : NormalizedEvent :=
  { importId := "abc123", title := some "Team Meeting", description := none,
    cabin := JSOpt.null, dates_start := "2024-01-15", dates_end := "2024-01-15" }

/-- The record the spec scenario claims, with an undefined location. -/
def claimedRecord : NormalizedEvent :=
  { importId := "abc123", title := some "Team Meeting", description := none,
    cabin := JSOpt.undefinedV, dates_start := "2024-01-15", dates_end := "2024-01-15" }

/-- A component whose uid does not match the id pattern. -/
def badComp : RawComponent := ⟨[⟨"uid", [.vstr "bad@uid"], false⟩]⟩

/-- The flat record extracted from badComp. -/
def badObj : List (String × JSVal) := [("uid", .vstr "bad@uid")]

/-- The until property value 2024-02-15 of the recurring scenario. -/
def untilJS : JSVal :=
  .vobj [("isDate", .vbool true), ("year", .vnum 2024), ("month", .vnum 2), ("day", .vnum 15)]

/-- A daily recurrence value running until 2024-02-15. -/
def rruleJS : JSVal := .vobj [("freq", .vstr "DAILY"), ("until", untilJS)]

/-- The scenario component extended with the daily recurrence. -/
def rruleComp : RawComponent :=
  ⟨[⟨"uid", [.vstr "1234567890-abc123-999999@afosterri.org"], false⟩,
    ⟨"summary", [.vstr "Team Meeting"], false⟩,
    ⟨"dtstart", [dtstartJS], false⟩,
    ⟨"rrule", [rruleJS], false⟩]⟩

/-- The flat record extracted from rruleComp. -/
def rruleObj : List (String × JSVal) :=
  [("uid", .vstr "1234567890-abc123-999999@afosterri.org"),
   ("summary", .vstr "Team Meeting"),
   ("dtstart", dtstartJS),
   ("rrule", rruleJS)]

/-- The validated event of rruleComp. -/
def rruleData : ValidatedEvent :=
  ⟨"abc123", some "Team Meeting", ⟨2024, 1, 15⟩, none, none, none, some ⟨⟨2024, 2, 15⟩⟩⟩

/-- A cutoff at 2024-01-20, before the recurring scenario ends. -/
def sampleCutoff : Int := parseDate ⟨2024, 1, 20⟩

/-- A component whose only property raises when its values are read. -/
def raiseComp : RawComponent := ⟨[⟨"uid", [JSVal.vstr "x"], true⟩]⟩

/-- A uid exercising the un-escaped dot of the id pattern: the dot
position holds the letter X. -/
def wildcardUid : String := "1234567890-abc123-999999@afosterriXorg"

/-- A flat record carrying wildcardUid and otherwise valid fields. -/
def wildcardObj : List (String × JSVal) :=
  [("uid", .vstr wildcardUid), ("summary", .vstr "Team Meeting"), ("dtstart", dtstartJS)]

/-- The validated event of wildcardObj. -/
def wildcardData : ValidatedEvent :=
  ⟨"abc123", some "Team Meeting", ⟨2024, 1, 15⟩, none, none, none, none⟩

/- ---------------- Claims ---------------- -/

/-- Claim C1: every accepted record of a run is built from a validated
event whose boundaries the orchestrator resolves with resolveRange
(rrule.until when recurrence is present, dtstart otherwise, the pair
swapped when the end precedes the start), and the resolved range always
satisfies start ≤ end. -/
theorem c1_accepted_range_ordered (comps : List RawComponent) (cutoff : Option Int)
    (e : NormalizedEvent) (he : e ∈ (ImportICS comps cutoff).accepted) :
    ∃ data : ValidatedEvent,
      e.dates_start = formatDate (resolveRange data.dtstart data.rrule).1
      ∧ e.dates_end = formatDate (resolveRange data.dtstart data.rrule).2
      ∧ (resolveRange data.dtstart data.rrule).1 ≤ (resolveRange data.dtstart data.rrule).2 := by
  obtain ⟨data, hmk, _⟩ := mem_accepted he
  refine ⟨data, ?_, ?_, resolveRange_fst_le_snd data.dtstart data.rrule⟩
  · rw [hmk]
    rfl
  · rw [hmk]
    rfl

/-- Witness for C1 at the worked scenario component. -/
theorem c1_accepted_range_ordered_witness :
    ∃ data : ValidatedEvent,
      goodRecord.dates_start = formatDate (resolveRange data.dtstart data.rrule).1
      ∧ goodRecord.dates_end = formatDate (resolveRange data.dtstart data.rrule).2
      ∧ (resolveRange data.dtstart data.rrule).1 ≤ (resolveRange data.dtstart data.rrule).2 :=
  c1_accepted_range_ordered [goodComp] none goodRecord (by decide)

/-- Claim C8: the pipeline is deterministic; identical component lists
and cutoff give identical results, in particular an identical accepted
list in order and content. -/
theorem c8_pipeline_deterministic (comps1 comps2 : List RawComponent) (cut1 cut2 : Option Int)
    (hcomps : comps1 = comps2) (hcut : cut1 = cut2) :
    (ImportICS comps1 cut1).accepted = (ImportICS comps2 cut2).accepted
    ∧ ImportICS comps1 cut1 = ImportICS comps2 cut2 := by
  rw [hcomps, hcut]
  exact ⟨rfl, rfl⟩

/-- Witness for C8 at the worked scenario component. -/
theorem c8_pipeline_deterministic_witness :
    (ImportICS [goodComp] none).accepted = (ImportICS [goodComp] none).accepted
    ∧ ImportICS [goodComp] none = ImportICS [goodComp] none :=
  c8_pipeline_deterministic [goodComp] [goodComp] none none rfl rfl

/-- Claim C10: the accepted-but-missing-end-date count is zero on every
run: every accepted record carries a formatted, hence non-empty, end
date string, so the falsy-end filter matches nothing. -/
theorem c10_noEndCount_zero (comps : List RawComponent) (cutoff : Option Int) :
    (ImportICS comps cutoff).noEndCount = 0 := by
  simp only [ImportICS]
  rw [List.length_eq_zero, List.filter_eq_nil_iff]
  intro e hmem
  have hacc : e ∈ (ImportICS comps cutoff).accepted := by
    simp only [ImportICS]
    exact hmem
  obtain ⟨data, hmk, _⟩ := mem_accepted hacc
  rw [hmk]
  simp only [mkEvent]
  intro hbeq
  exact formatDate_ne_empty _ (eq_of_beq hbeq)

/-- Claim C4 counterexample: the orchestrator resolves an absent
category label to JS null (the nullish coalescing), not to undefined as
claimed. -/
theorem c4_absent_category_counterexample :
    resolveCategory none ≠ (JSOpt.undefinedV : JSOpt String) := by decide

/-- Claim C4 (amended): an absent category label resolves to null, the
Meeting label resolves to null, and the other five labels resolve to
their five pairwise distinct opaque location identifiers. -/
theorem c4_resolveCategory_amended :
    resolveCategory none = (JSOpt.null : JSOpt String)
    ∧ resolveCategory (some "Meeting") = JSOpt.null
    ∧ resolveCategory (some "Foster") = JSOpt.val "45617389-7678-42bf-bfb4-83304a389dc7"
    ∧ resolveCategory (some "House") = JSOpt.val "430a512f-6a35-4ed0-9e4b-4efa7a90a0e7"
    ∧ resolveCategory (some "Ide") = JSOpt.val "d0b162c0-8a64-4946-b148-a7362c296709"
    ∧ resolveCategory (some "Kendrew") = JSOpt.val "2bb998a2-7c9a-4367-bcdb-b8e8a144b8a7"
    ∧ resolveCategory (some "Mosher") = JSOpt.val "649d65b6-9a50-491f-b0f2-8a0e22ee6275"
    ∧ (["45617389-7678-42bf-bfb4-83304a389dc7", "430a512f-6a35-4ed0-9e4b-4efa7a90a0e7",
        "d0b162c0-8a64-4946-b148-a7362c296709", "2bb998a2-7c9a-4367-bcdb-b8e8a144b8a7",
        "649d65b6-9a50-491f-b0f2-8a0e22ee6275"] : List String).Pairwise (· ≠ ·) := by
  decide

/-- Claim C2: a record whose uid string does not match the id pattern
fails validation (the transform throws rather than passing the uid
through), its flat record is appended to the unparsed bucket, and the
component contributes no accepted record. -/
theorem c2_bad_uid_unparsed (comps : List RawComponent) (cutoff : Option Int) (i : Nat)
    (c : RawComponent) (obj : List (String × JSVal)) (s : String)
    (hc : comps.get? i = some c)
    (hex : extract c = Except.ok obj)
    (hu : getField obj "uid" = JSVal.vstr s)
    (hm : extractCalciumId s = none) :
    validate obj = none
    ∧ processComponent cutoff i c = StepResult.unparsedR ⟨i, obj⟩
    ∧ UnparsedDiag.mk i obj ∈ (ImportICS comps cutoff).unparsed
    ∧ acceptedOf (processComponent cutoff i c) = none := by
  have hval : validate obj = none := by
    unfold validate
    rw [hu]
    simp [asString, hm]
  have hstep := @processComponent_of_validate_none cutoff i c obj hex hval
  refine ⟨hval, hstep, ?_, ?_⟩
  · have hsm := @step_mem cutoff comps i c hc
    rw [hstep] at hsm
    simp only [ImportICS]
    exact List.mem_filterMap.mpr ⟨_, hsm, rfl⟩
  · rw [hstep]
    rfl

/-- Witness for C2 at a component with an unmatchable uid. -/
theorem c2_bad_uid_unparsed_witness :
    validate badObj = none
    ∧ processComponent none 0 badComp = StepResult.unparsedR ⟨0, badObj⟩
    ∧ UnparsedDiag.mk 0 badObj ∈ (ImportICS [badComp] none).unparsed
    ∧ acceptedOf (processComponent none 0 badComp) = none :=
  c2_bad_uid_unparsed [badComp] none 0 badComp badObj "bad@uid" rfl rfl rfl rfl

/-- Claim C3 counterexample: the pipeline run on the scenario component
does not produce the claimed record carrying an undefined locationId;
the cabin field of the produced record is null. -/
theorem c3_scenario_counterexample :
    (ImportICS [goodComp] none).accepted ≠ [claimedRecord] := by decide

/-- Claim C3 (amended): the pipeline on the scenario component produces
exactly one accepted record, with importId abc123, title Team Meeting,
the single-day range 2024-01-15, and a null location (not undefined):
the nullish coalescing turns the absent category into null. -/
theorem c3_scenario_amended :
    ImportICS [goodComp] none = ⟨[goodRecord], [], [], 0⟩ := rfl

/-- Claim C5: with a cutoff D supplied, a component that extracts and
validates but whose resolved (post-swap) end is strictly after D is
dropped: its step result is dropped, no diagnostic with its index is in
broken or unparsed, it contributes no accepted record, and every
accepted record of the run has a resolved end at most D. -/
theorem c5_cutoff_excludes (comps : List RawComponent) (D : Int) (i : Nat) (c : RawComponent)
    (obj : List (String × JSVal)) (data : ValidatedEvent)
    (hc : comps.get? i = some c)
    (hex : extract c = Except.ok obj)
    (hv : validate obj = some data)
    (hd : D < (resolveRange data.dtstart data.rrule).2) :
    processComponent (some D) i c = StepResult.dropped
    ∧ (∀ d ∈ (ImportICS comps (some D)).broken, d.number ≠ i)
    ∧ (∀ d ∈ (ImportICS comps (some D)).unparsed, d.number ≠ i)
    ∧ acceptedOf (processComponent (some D) i c) = none
    ∧ (∀ e ∈ (ImportICS comps (some D)).accepted,
        ∃ dt : ValidatedEvent, e = mkEvent dt (resolveRange dt.dtstart dt.rrule)
          ∧ (resolveRange dt.dtstart dt.rrule).2 ≤ D) := by
  have hdrop := @processComponent_of_drop D i c obj data hex hv hd
  refine ⟨hdrop, ?_, ?_, ?_, ?_⟩
  · intro d hmem hni
    obtain ⟨c2, hg2, hp2⟩ := mem_broken_spec hmem
    rw [hni] at hg2 hp2
    rw [hc] at hg2
    injection hg2 with hc2
    subst hc2
    rw [hdrop] at hp2
    cases hp2
  · intro d hmem hni
    obtain ⟨c2, hg2, hp2⟩ := mem_unparsed_spec hmem
    rw [hni] at hg2 hp2
    rw [hc] at hg2
    injection hg2 with hc2
    subst hc2
    rw [hdrop] at hp2
    cases hp2
  · rw [hdrop]
    rfl
  · intro e hmem
    obtain ⟨dt, hmk, hcut⟩ := mem_accepted hmem
    exact ⟨dt, hmk, hcut D rfl⟩

/-- Witness for C5 at the recurring scenario with a cutoff before the
recurrence end. -/
theorem c5_cutoff_excludes_witness :
    processComponent (some sampleCutoff) 0 rruleComp = StepResult.dropped :=
  (c5_cutoff_excludes [rruleComp] sampleCutoff 0 rruleComp rruleObj rruleData rfl rfl rfl
    (by decide)).1

/-- Claim C6 counterexample: on the empty string the text-repair
transform does not return its input unchanged; it returns undefined. -/
theorem c6_fixApostrophe_counterexample :
    fixApostrophe (some "") ≠ some "" := by decide

/-- Claim C6 (amended): the transform returns undefined on absent and
on empty input, and on non-empty input returns the string of equal
length in which every replacement-character occurrence is replaced by
the right single quote and every other character is kept. -/
theorem c6_fixApostrophe_amended :
    fixApostrophe none = none
    ∧ fixApostrophe (some "") = none
    ∧ ∀ s : String, s ≠ "" →
        ∃ t, fixApostrophe (some s) = some t
          ∧ t.length = s.length
          ∧ ∀ i : Nat, t.data.get? i =
              (s.data.get? i).map (fun ch => if ch = '�' then '’' else ch) := by
  refine ⟨rfl, rfl, ?_⟩
  intro s hs
  have hlen : ¬s.length = 0 := by
    intro h0
    apply hs
    cases s with
    | mk data =>
      cases data with
      | nil => rfl
      | cons a l => simp [String.length] at h0
  refine ⟨String.mk (s.data.map fixChar), ?_, ?_, ?_⟩
  · show (if s.length = 0 then none else some (String.mk (s.data.map fixChar)))
      = some (String.mk (s.data.map fixChar))
    rw [if_neg hlen]
  · show (s.data.map fixChar).length = s.length
    rw [List.length_map]
    rfl
  · intro i
    rw [List.get?_map]
    rfl

/-- Witness for C6 at a non-empty string containing the artifact. -/
theorem c6_fixApostrophe_amended_witness :
    ∃ t, fixApostrophe (some "a�b") = some t
      ∧ t.length = ("a�b" : String).length
      ∧ ∀ i : Nat, t.data.get? i =
          (("a�b" : String).data.get? i).map (fun ch => if ch = '�' then '’' else ch) :=
  c6_fixApostrophe_amended.2.2 "a�b" (by decide)

/-- Claim C7: a component whose extraction raises yields a broken
diagnostic carrying its ordinal index and its raw property set, the
diagnostic is appended to the broken bucket, and every component of the
list is still processed (the run never aborts). -/
theorem c7_extraction_failure_isolated (comps : List RawComponent) (cutoff : Option Int)
    (i : Nat) (c : RawComponent) (f : Unit)
    (hc : comps.get? i = some c)
    (hex : extract c = Except.error f) :
    processComponent cutoff i c = StepResult.brokenR ⟨i, c.props⟩
    ∧ BrokenDiag.mk i c.props ∈ (ImportICS comps cutoff).broken
    ∧ ∀ j cj, comps.get? j = some cj →
        (runSteps cutoff 0 comps).get? j = some (processComponent cutoff j cj) := by
  have hstep : processComponent cutoff i c = StepResult.brokenR ⟨i, c.props⟩ := by
    unfold processComponent
    split
    next f2 hex2 => rfl
    next obj hex2 => rw [hex] at hex2; cases hex2
  refine ⟨hstep, ?_, ?_⟩
  · have hsm := @step_mem cutoff comps i c hc
    rw [hstep] at hsm
    simp only [ImportICS]
    exact List.mem_filterMap.mpr ⟨_, hsm, rfl⟩
  · intro j cj hcj
    have hg := runSteps_get? cutoff comps 0 j
    rw [hcj] at hg
    simpa using hg

/-- Witness for C7 at a component whose property read raises. -/
theorem c7_extraction_failure_isolated_witness :
    BrokenDiag.mk 0 raiseComp.props ∈ (ImportICS [raiseComp] none).broken :=
  (c7_extraction_failure_isolated [raiseComp] none 0 raiseComp () rfl rfl).2.1

/-- Claim C9: the dot of the fixed domain is an un-escaped regex
wildcard: a uid whose character at the dot position is the letter X
still matches the id pattern, passes validation, and has the middle
token extracted as its import id. -/
theorem c9_unescaped_dot_accepted :
    wildcardUid.data.get? 34 = some 'X'
    ∧ ('X' : Char) ≠ '.'
    ∧ extractCalciumId wildcardUid = some "abc123"
    ∧ ∃ data, validate wildcardObj = some data ∧ data.uid = "abc123" := by
  refine ⟨rfl, by decide, rfl, wildcardData, rfl, rfl⟩
